import Mathlib

/-!
Verification of the ChibiOS-Contrib STM32 FSMC SDRAM low-level driver
(`os/hal/ports/STM32/LLD/FSMCv1/fsmc_sdram.c`).

The driver is embedded shallowly:
* machine integers are `Nat` (all register values fit in 32 bits and no
  arithmetic overflows occur: the code only performs bitwise `&`/`|`);
* the hardware status register `SDSR`, which is written by the hardware
  and only read by the driver, is modelled as an oracle stream
  `env : Nat → Nat` giving the value returned by the n-th read;
* the busy-wait loop of `_sdram_wait_ready` is given explicit fuel, so
  that non-termination (a busy flag that never clears) is observable as
  `none` for every fuel;
* every hardware access is also recorded in an event trace, so that
  ordering properties of register writes and polls can be stated.
-/

/-! ### Register-interface constants

`FMC_Command_Mode_*` are the command codes defined locally in
`fsmc_sdram.c` (lines 45–51). -/

def FMC_Command_Mode_normal : Nat := 0x00000000

def FMC_Command_Mode_CLK_Enabled : Nat := 0x00000001

def FMC_Command_Mode_PALL : Nat := 0x00000002

def FMC_Command_Mode_AutoRefresh : Nat := 0x00000003

def FMC_Command_Mode_LoadMode : Nat := 0x00000004

def FMC_Command_Mode_Selfrefresh : Nat := 0x00000005

def FMC_Command_Mode_PowerDown : Nat := 0x00000006

/-- Modelled from the spec: the device-header bit masks for the command
register `SDCMR` are not part of the repository source; these are the
STM32F4xx values referenced by the code.  `CTB1`/`CTB2` select the
command target bank. -/
def FMC_SDCMR_CTB1 : Nat := 0x00000010

/-- Modelled from the spec: command target bank 2 select bit. -/
def FMC_SDCMR_CTB2 : Nat := 0x00000008

/-- Modelled from the spec: mask of the auto-refresh-count field (NRFS,
bits 5..8) of `SDCMR`, used to extract the caller-supplied
refresh-cycle-count from the configuration's command-register field. -/
def FMC_SDCMR_NRFS : Nat := 0x000001E0

/-- Modelled from the spec: mask of the mode-register field (MRD, bits
9..21) of `SDCMR`. -/
def FMC_SDCMR_MRD : Nat := 0x003FFE00

/-- Modelled from the spec: busy flag of the status register `SDSR`. -/
def FMC_SDSR_BUSY : Nat := 0x00000020

/-! ### Data model -/

/-- Hardware events observable at the register interface (plus the call
into the parent bus controller and the fatal assertion). -/
inductive Event where
  /-- a read of the status register `SDSR` returning value `v` -/
  | poll (v : Nat)
  /-- a write of value `v` to the command register `SDCMR` -/
  | wSDCMR (v : Nat)
  /-- a write of value `v` to the refresh-timer register `SDRTR` -/
  | wSDRTR (v : Nat)
  /-- a write of value `v` to `banks[bank].SDCR` -/
  | wSDCR (bank : Nat) (v : Nat)
  /-- a write of value `v` to `banks[bank].SDTR` -/
  | wSDTR (bank : Nat) (v : Nat)
  /-- the blocking delay `osalThreadSleepMilliseconds ms` -/
  | sleepMs (ms : Nat)
  /-- the lazy call `fsmc_start(&FSMCD1)` into the parent bus controller -/
  | fsmcStart
  /-- the fatal assertion `osalDbgAssert` firing -/
  | assertFail
deriving DecidableEq, Repr

/-- The writable hardware registers of the SDRAM controller: two bank
control/timing register pairs, the command register and the
refresh-timer register.  (`SDSR` is read-only and modelled by the
oracle stream instead.) -/
structure Regs where
  sdcr0 : Nat
  sdtr0 : Nat
  sdcr1 : Nat
  sdtr1 : Nat
  sdcmr : Nat
  sdrtr : Nat
deriving DecidableEq, Repr

/-- The caller-supplied configuration record `SDRAMConfig`. -/
structure SDRAMConfig where
  sdcr : Nat
  sdtr : Nat
  sdcmr : Nat
  sdrtr : Nat
deriving DecidableEq, Repr

/-- Modelled from the spec: the driver lifecycle state.  The source file
uses `SDRAM_STOP` and `SDRAM_READY`; the assertion in `fsmcSdramStart`
guards against "any other value", so the uninitialized state is also
represented. -/
inductive SdramState where
  | uninit
  | stop
  | ready
deriving DecidableEq, Repr

/-- Modelled from the spec: the parent bus controller (`FSMCD1`) exposes
an is-started query (`state == FSMC_STOP`) and a start operation. -/
inductive FsmcState where
  | stop
  | ready
deriving DecidableEq, Repr

/-- The SDRAM driver handle together with the parent controller state:
the lifecycle flag and the register block it points to. -/
structure Machine where
  fsmcState : FsmcState
  sdramState : SdramState
  regs : Regs
deriving DecidableEq, Repr

/-- Sequencer state threaded through the initialization sequence: the
current register values, the index of the next `SDSR` read in the
oracle stream, and the trace of events so far. -/
structure SeqSt where
  regs : Regs
  k : Nat
  tr : List Event
deriving DecidableEq, Repr

/-! ### The readiness gate

`_sdram_wait_ready` (fsmc_sdram.c lines 78–81):
`while (SDRAMD.sdram->SDSR & FMC_SDSR_BUSY);`.
Reads `SDSR` repeatedly until the busy flag reads clear.  `env` is the
oracle stream of `SDSR` values, `k` the index of the next read, `fuel`
bounds the number of reads; the result is the trace of polls performed
and, on success, the next read index. -/
def waitReady (env : Nat → Nat) : Nat → Nat → List Event × Option Nat
  | _, 0 => ([], none)
  | k, fuel + 1 =>
    if env k &&& FMC_SDSR_BUSY = 0 then
      ([Event.poll (env k)], some (k + 1))
    else
      let r := waitReady env (k + 1) fuel
      (Event.poll (env k) :: r.1, r.2)

/-! ### Sequencer steps -/

/-- Run the readiness gate from sequencer state `s`, appending its polls
to the trace; a gate that exhausts its fuel aborts the sequence, and
the partial trace is reported. -/
def stWait (env : Nat → Nat) (fuel : Nat) (s : SeqSt) :
    Except (List Event) SeqSt :=
  match waitReady env s.k fuel with
  | (es, some k') => .ok { s with k := k', tr := s.tr ++ es }
  | (es, none) => .error (s.tr ++ es)

/-- Write `v` to the command register `SDCMR`. -/
def stWriteSDCMR (v : Nat) (s : SeqSt) : SeqSt :=
  { s with regs := { s.regs with sdcmr := v }, tr := s.tr ++ [Event.wSDCMR v] }

/-- Write `v` to the refresh-timer register `SDRTR`. -/
def stWriteSDRTR (v : Nat) (s : SeqSt) : SeqSt :=
  { s with regs := { s.regs with sdrtr := v }, tr := s.tr ++ [Event.wSDRTR v] }

/-- Block for `ms` milliseconds (`osalThreadSleepMilliseconds`). -/
def stSleep (ms : Nat) (s : SeqSt) : SeqSt :=
  { s with tr := s.tr ++ [Event.sleepMs ms] }

/-- Sequential composition aborting on a hung readiness gate. -/
def andThen (x : Except (List Event) SeqSt)
    (f : SeqSt → Except (List Event) SeqSt) : Except (List Event) SeqSt :=
  match x with
  | .error tr => .error tr
  | .ok s => f s

/-! ### The initialization sequence -/

/-- The command-target bitmask `command_target` computed from the
compile-time bank-enable flags `STM32_SDRAM_USE_FSMC_SDRAM1/2`
(fsmc_sdram.c lines 92–99). -/
def commandTarget (use1 use2 : Bool) : Nat :=
  (if use1 then FMC_SDCMR_CTB1 else 0) ||| (if use2 then FMC_SDCMR_CTB2 else 0)

/-- The clock-enable command value written at step 3. -/
def clkEnableCmd (use1 use2 : Bool) : Nat :=
  FMC_Command_Mode_CLK_Enabled ||| commandTarget use1 use2

/-- The precharge-all command value written at step 5. -/
def pallCmd (use1 use2 : Bool) : Nat :=
  FMC_Command_Mode_PALL ||| commandTarget use1 use2

/-- The auto-refresh command value written twice at steps 6.1/6.2,
carrying the caller-supplied refresh-cycle-count field. -/
def autoRefreshCmd (use1 use2 : Bool) (cfgp : SDRAMConfig) : Nat :=
  FMC_Command_Mode_AutoRefresh ||| commandTarget use1 use2 |||
    (cfgp.sdcmr &&& FMC_SDCMR_NRFS)

/-- The load-mode-register command value written at step 7, carrying the
caller-supplied mode-register field. -/
def loadModeCmd (use1 use2 : Bool) (cfgp : SDRAMConfig) : Nat :=
  FMC_Command_Mode_LoadMode ||| commandTarget use1 use2 |||
    (cfgp.sdcmr &&& FMC_SDCMR_MRD)

/-- `_sdram_init_sequence` (fsmc_sdram.c lines 90–131): the ordered
JEDEC bring-up protocol.  Steps follow the source comments: wait, clock
enable, 1 ms delay, wait, precharge-all, wait, auto-refresh twice (the
second write not preceded by a wait), wait, load-mode-register, wait,
refresh-timer reload, final wait. -/
def sdramInitSequence (use1 use2 : Bool) (cfgp : SDRAMConfig)
    (env : Nat → Nat) (fuel : Nat) (s : SeqSt) : Except (List Event) SeqSt :=
  andThen (stWait env fuel s) fun s =>
  let s := stWriteSDCMR (clkEnableCmd use1 use2) s
  let s := stSleep 1 s
  andThen (stWait env fuel s) fun s =>
  let s := stWriteSDCMR (pallCmd use1 use2) s
  andThen (stWait env fuel s) fun s =>
  let s := stWriteSDCMR (autoRefreshCmd use1 use2 cfgp) s
  let s := stWriteSDCMR (autoRefreshCmd use1 use2 cfgp) s
  andThen (stWait env fuel s) fun s =>
  let s := stWriteSDCMR (loadModeCmd use1 use2 cfgp) s
  andThen (stWait env fuel s) fun s =>
  let s := stWriteSDRTR cfgp.sdrtr s
  andThen (stWait env fuel s) fun s =>
  .ok s

/-! ### Lifecycle operations -/

/-- Outcome of a call to `fsmcSdramStart`: normal return, the fatal
assertion firing, or a readiness gate that never saw the busy flag
clear within its fuel (the caller is blocked forever).  Each outcome
carries the trace of hardware events performed. -/
inductive StartResult where
  | ok (m : Machine) (k : Nat) (tr : List Event)
  | assertFailed (tr : List Event)
  | hung (tr : List Event)
deriving DecidableEq, Repr

/-- `fsmcSdramStart` (fsmc_sdram.c lines 158–180).  Lazily starts the
parent bus controller, asserts the lifecycle state, and if STOPPED
writes both banks' control/timing registers, runs the initialization
sequence and transitions to READY; if READY it is a no-op. -/
def fsmcSdramStart (use1 use2 : Bool) (env : Nat → Nat) (fuel : Nat)
    (m : Machine) (cfgp : SDRAMConfig) (k : Nat) : StartResult :=
  let fsmcSt := if m.fsmcState = FsmcState.stop then FsmcState.ready
                else m.fsmcState
  let tr0 : List Event :=
    if m.fsmcState = FsmcState.stop then [Event.fsmcStart] else []
  if m.sdramState = SdramState.stop ∨ m.sdramState = SdramState.ready then
    if m.sdramState = SdramState.stop then
      let regs := { m.regs with sdcr0 := cfgp.sdcr }
      let regs := { regs with sdtr0 := cfgp.sdtr }
      let regs := { regs with sdcr1 := cfgp.sdcr }
      let regs := { regs with sdtr1 := cfgp.sdtr }
      let tr := tr0 ++ [Event.wSDCR 0 cfgp.sdcr, Event.wSDTR 0 cfgp.sdtr,
                        Event.wSDCR 1 cfgp.sdcr, Event.wSDTR 1 cfgp.sdtr]
      match sdramInitSequence use1 use2 cfgp env fuel ⟨regs, k, tr⟩ with
      | .ok s =>
          .ok { fsmcState := fsmcSt, sdramState := SdramState.ready,
                regs := s.regs } s.k s.tr
      | .error tr => .hung tr
    else
      .ok { m with fsmcState := fsmcSt } k tr0
  else
    .assertFailed (tr0 ++ [Event.assertFail])

/-- `fsmcSdramStop` (fsmc_sdram.c lines 189–194): if READY, set the
lifecycle flag back to STOPPED; no hardware access at all, so the event
trace is empty. -/
def fsmcSdramStop (m : Machine) : Machine × List Event :=
  if m.sdramState = SdramState.ready then
    ({ m with sdramState := SdramState.stop }, [])
  else
    (m, [])

/-! ### Trace observations -/

/-- The event trace of a start outcome. -/
def StartResult.trace : StartResult → List Event
  | .ok _ _ tr => tr
  | .assertFailed tr => tr
  | .hung tr => tr

/-- The values written to the command register, in order. -/
def cmdWrites (tr : List Event) : List Nat :=
  tr.filterMap fun e =>
    match e with
    | Event.wSDCMR v => some v
    | _ => none

/-- Whether an event is a write to any hardware register. -/
def Event.isRegWrite : Event → Bool
  | Event.wSDCMR _ => true
  | Event.wSDRTR _ => true
  | Event.wSDCR _ _ => true
  | Event.wSDTR _ _ => true
  | _ => false

/-- Whether an event is a command-register write. -/
def Event.isCmdWrite : Event → Bool
  | Event.wSDCMR _ => true
  | _ => false

/-- Whether an event is a status poll that read the busy flag clear. -/
def Event.isClearPoll : Event → Bool
  | Event.poll v => v &&& FMC_SDSR_BUSY = 0
  | _ => false


/-- The four bank-register writes performed by `fsmcSdramStart` before
the initialization sequence (fsmc_sdram.c lines 171–174). -/
def bankWrites (cfgp : SDRAMConfig) : List Event :=
  [Event.wSDCR 0 cfgp.sdcr, Event.wSDTR 0 cfgp.sdtr,
   Event.wSDCR 1 cfgp.sdcr, Event.wSDTR 1 cfgp.sdtr]

/-- The event trace of a completed initialization sequence, as a
function of the six readiness-gate poll bursts `w1`–`w6`. -/
def initTraceShape (use1 use2 : Bool) (cfgp : SDRAMConfig)
    (w1 w2 w3 w4 w5 w6 : List Event) : List Event :=
  w1 ++ [Event.wSDCMR (clkEnableCmd use1 use2), Event.sleepMs 1] ++
  w2 ++ [Event.wSDCMR (pallCmd use1 use2)] ++
  w3 ++ [Event.wSDCMR (autoRefreshCmd use1 use2 cfgp),
         Event.wSDCMR (autoRefreshCmd use1 use2 cfgp)] ++
  w4 ++ [Event.wSDCMR (loadModeCmd use1 use2 cfgp)] ++
  w5 ++ [Event.wSDRTR cfgp.sdrtr] ++ w6

/-- The register file after a completed start from STOPPED: both bank
pairs hold the configured control/timing values, the command register
holds the last command issued (load-mode) and the refresh timer holds
the configured reload value. -/
def startedRegs (use1 use2 : Bool) (cfgp : SDRAMConfig) : Regs :=
  ⟨cfgp.sdcr, cfgp.sdtr, cfgp.sdcr, cfgp.sdtr,
   loadModeCmd use1 use2 cfgp, cfgp.sdrtr⟩

/-- A successful gate's trace is a non-empty burst of polls whose last
poll read the busy flag clear. -/
def clearPollBurst (es : List Event) : Prop :=
  es ≠ [] ∧ (∀ e ∈ es, ∃ v, e = Event.poll v) ∧
    ∃ v, es.getLast? = some (Event.poll v) ∧ v &&& FMC_SDSR_BUSY = 0

/-- State of a left-to-right scan of a trace, used to check the gating
of command-register writes: whether a clear status poll has been seen
since the last command write (or the start of the trace), and the value
of the immediately preceding event when it was a command write. -/
def scanState : Bool × Option Nat → List Event → Bool × Option Nat
  | st, [] => st
  | (b, _), e :: rest =>
    match e with
    | Event.wSDCMR v => scanState (false, some v) rest
    | _ => scanState (b || e.isClearPoll, none) rest

/-- The gating property claimed of the trace by C7: scanning left to
right, every command-register write happens only when a clear status
poll has been observed since the previous command write (initially,
since the start of the trace). -/
def cmdWritesGated (b : Bool) : List Event → Bool
  | [] => true
  | e :: rest =>
    match e with
    | Event.wSDCMR _ => b && cmdWritesGated false rest
    | _ => cmdWritesGated (b || e.isClearPoll) rest

/-- The amended gating property: every command-register write is either
gated by a clear status poll since the previous command write, or
immediately follows a command write of the identical value (the
back-to-back auto-refresh pair). -/
def cmdWritesGatedAmended : Bool × Option Nat → List Event → Bool
  | _, [] => true
  | (b, p), e :: rest =>
    match e with
    | Event.wSDCMR v =>
        (b || p == some v) && cmdWritesGatedAmended (false, some v) rest
    | _ => cmdWritesGatedAmended (b || e.isClearPoll, none) rest

/-! ### Lemmas about the readiness gate -/

theorem waitReady_succ_clear (env : Nat → Nat) (k fuel : Nat)
    (h : env k &&& FMC_SDSR_BUSY = 0) :
    waitReady env k (fuel + 1) = ([Event.poll (env k)], some (k + 1)) := by
  simp [waitReady, h]

theorem waitReady_succ_busy (env : Nat → Nat) (k fuel : Nat)
    (h : env k &&& FMC_SDSR_BUSY ≠ 0) :
    waitReady env k (fuel + 1) =
      (Event.poll (env k) :: (waitReady env (k + 1) fuel).1,
        (waitReady env (k + 1) fuel).2) := by
  simp [waitReady, h]

/-- On success, the readiness gate advances the read index, the last
read had the busy flag clear, every earlier read had it set, and the
trace consists of the polls performed, ending with the clear one. -/
theorem waitReady_spec (env : Nat → Nat) :
    ∀ fuel k es k', waitReady env k fuel = (es, some k') →
      k < k' ∧
      env (k' - 1) &&& FMC_SDSR_BUSY = 0 ∧
      (∀ j, k ≤ j → j + 1 < k' → env j &&& FMC_SDSR_BUSY ≠ 0) ∧
      es = (List.range (k' - k)).map (fun i => Event.poll (env (k + i))) := by
  intro fuel
  induction fuel with
  | zero => intro k es k' h; simp [waitReady] at h
  | succ n ih =>
    intro k es k' h
    by_cases hb : env k &&& FMC_SDSR_BUSY = 0
    · rw [waitReady_succ_clear env k n hb, Prod.mk.injEq] at h
      obtain ⟨hes, hk⟩ := h
      subst hes
      obtain rfl := Option.some.inj hk
      refine ⟨Nat.lt_succ_self k, by simpa using hb, ?_, ?_⟩
      · intro j hkj hjk
        omega
      · simp [List.range_succ]
    · rw [waitReady_succ_busy env k n hb] at h
      rcases hr : waitReady env (k + 1) n with ⟨es', r⟩
      rw [hr, Prod.mk.injEq] at h
      obtain ⟨hes, hk⟩ := h
      cases r with
      | none => simp at hk
      | some k2 =>
        obtain rfl := Option.some.inj hk
        obtain ⟨hlt, hclear, hbusy, htr⟩ := ih (k + 1) es' k2 hr
        refine ⟨by omega, hclear, ?_, ?_⟩
        · intro j hkj hjk
          rcases Nat.eq_or_lt_of_le hkj with rfl | hlt'
          · exact hb
          · exact hbusy j hlt' hjk
        · subst htr
          rw [← hes]
          have hd : k2 - k = (k2 - (k + 1)) + 1 := by omega
          rw [hd, List.range_succ_eq_map, List.map_cons, List.map_map]
          congr 1
          apply List.map_congr_left
          intro i _
          simp only [Function.comp_apply]
          congr 2
          omega

/-- More fuel does not change the result of a successful gate. -/
theorem waitReady_mono (env : Nat → Nat) :
    ∀ fuel k es k' fuel', waitReady env k fuel = (es, some k') →
      fuel ≤ fuel' → waitReady env k fuel' = (es, some k') := by
  intro fuel
  induction fuel with
  | zero => intro k es k' fuel' h; simp [waitReady] at h
  | succ n ih =>
    intro k es k' fuel' h hle
    obtain ⟨f', rfl⟩ : ∃ f', fuel' = f' + 1 := by
      cases fuel' with
      | zero => omega
      | succ f' => exact ⟨f', rfl⟩
    by_cases hb : env k &&& FMC_SDSR_BUSY = 0
    · rw [waitReady_succ_clear env k n hb] at h
      rw [waitReady_succ_clear env k f' hb]
      exact h
    · rw [waitReady_succ_busy env k n hb] at h
      rw [waitReady_succ_busy env k f' hb]
      rcases hr : waitReady env (k + 1) n with ⟨es', r⟩
      rw [hr] at h
      cases r with
      | none => simp at h
      | some k2 =>
        rw [Prod.mk.injEq] at h
        obtain ⟨hes, hk⟩ := h
        rw [ih (k + 1) es' k2 f' hr (by omega)]
        simp_all

/-- If the busy flag reads clear at some read index at or after `k`,
the gate terminates with enough fuel. -/
theorem waitReady_terminates (env : Nat → Nat) :
    ∀ d k m, m - k = d → k ≤ m → env m &&& FMC_SDSR_BUSY = 0 →
      ∃ fuel es k', waitReady env k fuel = (es, some k') := by
  intro d
  induction d with
  | zero =>
    intro k m hd hkm hm
    obtain rfl : m = k := by omega
    exact ⟨1, _, _, waitReady_succ_clear env m 0 hm⟩
  | succ n ih =>
    intro k m hd hkm hm
    by_cases hb : env k &&& FMC_SDSR_BUSY = 0
    · exact ⟨1, _, _, waitReady_succ_clear env k 0 hb⟩
    · have hkm' : k + 1 ≤ m := by
        rcases Nat.eq_or_lt_of_le hkm with rfl | h
        · exact absurd hm hb
        · omega
      obtain ⟨fuel, es, k', hw⟩ := ih (k + 1) m (by omega) hkm' hm
      refine ⟨fuel + 1, Event.poll (env k) :: es, k', ?_⟩
      rw [waitReady_succ_busy env k fuel hb, hw]

/-- If the busy flag never reads clear from `k` on, the gate hangs for
every amount of fuel: the loop never exits. -/
theorem waitReady_diverges (env : Nat → Nat) :
    ∀ fuel k, (∀ m, k ≤ m → env m &&& FMC_SDSR_BUSY ≠ 0) →
      (waitReady env k fuel).2 = none := by
  intro fuel
  induction fuel with
  | zero => intro k _; simp [waitReady]
  | succ n ih =>
    intro k hbusy
    rw [waitReady_succ_busy env k n (hbusy k le_rfl)]
    exact ih (k + 1) fun m hm => hbusy m (by omega)

/-! ### Trace shape of the initialization sequence -/



theorem andThen_stWait_ok (env : Nat → Nat) (fuel : Nat) (s : SeqSt)
    (f : SeqSt → Except (List Event) SeqSt) (s' : SeqSt) :
    andThen (stWait env fuel s) f = .ok s' ↔
      ∃ es k', waitReady env s.k fuel = (es, some k') ∧
        f { s with k := k', tr := s.tr ++ es } = .ok s' := by
  unfold andThen stWait
  rcases h : waitReady env s.k fuel with ⟨es, r⟩
  cases r with
  | none => simp
  | some k' =>
    simp only [Prod.mk.injEq, Option.some.injEq]
    constructor
    · intro hf
      exact ⟨es, k', ⟨rfl, rfl⟩, hf⟩
    · rintro ⟨es', k'', ⟨rfl, rfl⟩, hf⟩
      exact hf

/-- A successful run of `_sdram_init_sequence` performs exactly the
write/delay sequence of `initTraceShape`, interleaved with six
successful readiness gates, leaves the command register holding the
load-mode command and the refresh-timer register holding the
configured reload value, and touches no other register. -/
theorem sdramInitSequence_ok (use1 use2 : Bool) (cfgp : SDRAMConfig)
    (env : Nat → Nat) (fuel : Nat) (s s' : SeqSt)
    (h : sdramInitSequence use1 use2 cfgp env fuel s = .ok s') :
    ∃ w1 k1 w2 k2 w3 k3 w4 k4 w5 k5 w6 k6,
      waitReady env s.k fuel = (w1, some k1) ∧
      waitReady env k1 fuel = (w2, some k2) ∧
      waitReady env k2 fuel = (w3, some k3) ∧
      waitReady env k3 fuel = (w4, some k4) ∧
      waitReady env k4 fuel = (w5, some k5) ∧
      waitReady env k5 fuel = (w6, some k6) ∧
      s' = ⟨{ s.regs with
              sdcmr := loadModeCmd use1 use2 cfgp
              sdrtr := cfgp.sdrtr }, k6,
            s.tr ++ initTraceShape use1 use2 cfgp w1 w2 w3 w4 w5 w6⟩ := by
  unfold sdramInitSequence at h
  rw [andThen_stWait_ok] at h
  obtain ⟨w1, k1, hw1, h⟩ := h
  simp only [stWriteSDCMR, stSleep, stWriteSDRTR] at h
  rw [andThen_stWait_ok] at h
  obtain ⟨w2, k2, hw2, h⟩ := h
  simp only [stWriteSDCMR, stSleep, stWriteSDRTR] at h
  rw [andThen_stWait_ok] at h
  obtain ⟨w3, k3, hw3, h⟩ := h
  simp only [stWriteSDCMR, stSleep, stWriteSDRTR] at h
  rw [andThen_stWait_ok] at h
  obtain ⟨w4, k4, hw4, h⟩ := h
  simp only [stWriteSDCMR, stSleep, stWriteSDRTR] at h
  rw [andThen_stWait_ok] at h
  obtain ⟨w5, k5, hw5, h⟩ := h
  simp only [stWriteSDCMR, stSleep, stWriteSDRTR] at h
  rw [andThen_stWait_ok] at h
  obtain ⟨w6, k6, hw6, h⟩ := h
  refine ⟨w1, k1, w2, k2, w3, k3, w4, k4, w5, k5, w6, k6,
    by simpa using hw1, by simpa using hw2, by simpa using hw3,
    by simpa using hw4, by simpa using hw5, by simpa using hw6, ?_⟩
  have hs' : s' = { s with
      regs := { s.regs with
                sdcmr := loadModeCmd use1 use2 cfgp
                sdrtr := cfgp.sdrtr }
      k := k6
      tr := ((((((((((((s.tr ++ w1 ++ [Event.wSDCMR (clkEnableCmd use1 use2)])
        ++ [Event.sleepMs 1]) ++ w2) ++ [Event.wSDCMR (pallCmd use1 use2)])
        ++ w3) ++ [Event.wSDCMR (autoRefreshCmd use1 use2 cfgp)])
        ++ [Event.wSDCMR (autoRefreshCmd use1 use2 cfgp)]) ++ w4)
        ++ [Event.wSDCMR (loadModeCmd use1 use2 cfgp)]) ++ w5)
        ++ [Event.wSDRTR cfgp.sdrtr]) ++ w6) } := by
    exact (Except.ok.inj h).symm
  rw [hs']
  simp [initTraceShape]


/-- Complete description of a successful `fsmcSdramStart` from the
STOPPED state: its trace is the (possible) parent start, the four bank
writes, then the initialization sequence, and the final machine is
READY with the configured register file. -/
theorem fsmcSdramStart_stop_ok (use1 use2 : Bool) (env : Nat → Nat)
    (fuel : Nat) (m : Machine) (cfgp : SDRAMConfig) (k : Nat)
    (m' : Machine) (k' : Nat) (tr : List Event)
    (hst : m.sdramState = SdramState.stop)
    (h : fsmcSdramStart use1 use2 env fuel m cfgp k = .ok m' k' tr) :
    ∃ w1 k1 w2 k2 w3 k3 w4 k4 w5 k5 w6 k6,
      waitReady env k fuel = (w1, some k1) ∧
      waitReady env k1 fuel = (w2, some k2) ∧
      waitReady env k2 fuel = (w3, some k3) ∧
      waitReady env k3 fuel = (w4, some k4) ∧
      waitReady env k4 fuel = (w5, some k5) ∧
      waitReady env k5 fuel = (w6, some k6) ∧
      m' = { fsmcState := FsmcState.ready, sdramState := SdramState.ready,
             regs := startedRegs use1 use2 cfgp } ∧
      k' = k6 ∧
      tr = (if m.fsmcState = FsmcState.stop then [Event.fsmcStart] else []) ++
        bankWrites cfgp ++
        initTraceShape use1 use2 cfgp w1 w2 w3 w4 w5 w6 := by
  unfold fsmcSdramStart at h
  rw [hst] at h
  simp only [reduceCtorEq, or_false, or_true, if_true, reduceIte] at h
  rcases hseq : sdramInitSequence use1 use2 cfgp env fuel
      ⟨{ m.regs with
         sdcr0 := cfgp.sdcr
         sdtr0 := cfgp.sdtr
         sdcr1 := cfgp.sdcr
         sdtr1 := cfgp.sdtr }, k,
       (if m.fsmcState = FsmcState.stop then [Event.fsmcStart] else []) ++
         [Event.wSDCR 0 cfgp.sdcr, Event.wSDTR 0 cfgp.sdtr,
          Event.wSDCR 1 cfgp.sdcr, Event.wSDTR 1 cfgp.sdtr]⟩
      with etr | s
  · rw [hseq] at h
    exact absurd h (by simp)
  · rw [hseq] at h
    obtain ⟨w1, k1, w2, k2, w3, k3, w4, k4, w5, k5, w6, k6,
      hw1, hw2, hw3, hw4, hw5, hw6, hs⟩ :=
      sdramInitSequence_ok use1 use2 cfgp env fuel _ s hseq
    subst hs
    simp only [StartResult.ok.injEq] at h
    obtain ⟨hm, hk, htr⟩ := h
    refine ⟨w1, k1, w2, k2, w3, k3, w4, k4, w5, k5, w6, k6,
      hw1, hw2, hw3, hw4, hw5, hw6, ?_, ?_, ?_⟩
    · rw [← hm]
      rcases hf : m.fsmcState <;> simp [hf, startedRegs]
    · simpa using hk.symm
    · rw [← htr]
      simp [bankWrites, initTraceShape]

/-! ### Trace observations of poll bursts -/

/-- Every event the readiness gate ever records is a status poll,
whether or not the gate completes. -/
theorem waitReady_polls (env : Nat → Nat) :
    ∀ fuel k, ∀ e ∈ (waitReady env k fuel).1, ∃ v, e = Event.poll v := by
  intro fuel
  induction fuel with
  | zero => intro k e he; simp [waitReady] at he
  | succ n ih =>
    intro k e he
    by_cases hb : env k &&& FMC_SDSR_BUSY = 0
    · rw [waitReady_succ_clear env k n hb] at he
      simp at he
      exact ⟨env k, he⟩
    · rw [waitReady_succ_busy env k n hb] at he
      rcases List.mem_cons.mp he with rfl | hmem
      · exact ⟨env k, rfl⟩
      · exact ih (k + 1) e hmem


theorem waitReady_clearPollBurst (env : Nat → Nat) (fuel k : Nat)
    (es : List Event) (k' : Nat) (h : waitReady env k fuel = (es, some k')) :
    clearPollBurst es := by
  obtain ⟨hlt, hclear, _, htr⟩ := waitReady_spec env fuel k es k' h
  have hne : es ≠ [] := by
    subst htr
    simp only [ne_eq, List.map_eq_nil_iff, List.range_eq_nil]
    omega
  refine ⟨hne, ?_, env (k' - 1), ?_, hclear⟩
  · intro e he
    exact waitReady_polls env fuel k e (h ▸ he)
  · subst htr
    rw [List.getLast?_eq_getLast _ hne, List.getLast_eq_getElem]
    simp only [List.getElem_map, List.length_map, List.length_range,
      List.getElem_range]
    have : k + (k' - k - 1) = k' - 1 := by omega
    rw [this]

theorem cmdWrites_append (a b : List Event) :
    cmdWrites (a ++ b) = cmdWrites a ++ cmdWrites b := by
  simp [cmdWrites]

/-- A burst of polls contains no command-register writes. -/
theorem cmdWrites_eq_nil (es : List Event)
    (h : ∀ e ∈ es, ∃ v, e = Event.poll v) : cmdWrites es = [] := by
  rw [cmdWrites, List.filterMap_eq_nil_iff]
  intro e he
  obtain ⟨v, rfl⟩ := h e he
  rfl

/-- The command-register writes of a completed initialization sequence,
in order: clock-enable, precharge-all, auto-refresh, auto-refresh,
load-mode. -/
theorem cmdWrites_initTraceShape (use1 use2 : Bool) (cfgp : SDRAMConfig)
    (w1 w2 w3 w4 w5 w6 : List Event)
    (h1 : ∀ e ∈ w1, ∃ v, e = Event.poll v)
    (h2 : ∀ e ∈ w2, ∃ v, e = Event.poll v)
    (h3 : ∀ e ∈ w3, ∃ v, e = Event.poll v)
    (h4 : ∀ e ∈ w4, ∃ v, e = Event.poll v)
    (h5 : ∀ e ∈ w5, ∃ v, e = Event.poll v)
    (h6 : ∀ e ∈ w6, ∃ v, e = Event.poll v) :
    cmdWrites (initTraceShape use1 use2 cfgp w1 w2 w3 w4 w5 w6) =
      [clkEnableCmd use1 use2, pallCmd use1 use2,
       autoRefreshCmd use1 use2 cfgp, autoRefreshCmd use1 use2 cfgp,
       loadModeCmd use1 use2 cfgp] := by
  unfold initTraceShape
  simp only [cmdWrites_append, cmdWrites_eq_nil w1 h1, cmdWrites_eq_nil w2 h2,
    cmdWrites_eq_nil w3 h3, cmdWrites_eq_nil w4 h4, cmdWrites_eq_nil w5 h5,
    cmdWrites_eq_nil w6 h6]
  simp [cmdWrites]

/-! ### Error path of the initialization sequence -/

theorem andThen_stWait_error (env : Nat → Nat) (fuel : Nat) (s : SeqSt)
    (f : SeqSt → Except (List Event) SeqSt) (etr : List Event) :
    andThen (stWait env fuel s) f = .error etr ↔
      (∃ es, waitReady env s.k fuel = (es, none) ∧ etr = s.tr ++ es) ∨
      (∃ es k', waitReady env s.k fuel = (es, some k') ∧
        f { s with k := k', tr := s.tr ++ es } = .error etr) := by
  unfold andThen stWait
  rcases h : waitReady env s.k fuel with ⟨es, r⟩
  cases r with
  | none =>
    simp only [Prod.mk.injEq]
    constructor
    · intro he
      exact Or.inl ⟨es, ⟨rfl, by simp⟩, (Except.error.inj he).symm⟩
    · rintro (⟨es', ⟨rfl, _⟩, rfl⟩ | ⟨es', k', ⟨rfl, hk⟩, _⟩)
      · rfl
      · simp at hk
  | some k' =>
    simp only [Prod.mk.injEq]
    constructor
    · intro he
      exact Or.inr ⟨es, k', ⟨rfl, by simp⟩, he⟩
    · rintro (⟨es', ⟨rfl, hk⟩, rfl⟩ | ⟨es', k'', ⟨rfl, hk⟩, he⟩)
      · simp at hk
      · obtain rfl := Option.some.inj hk
        exact he

/-- When the initialization sequence hangs at a readiness gate, its
reported trace extends the incoming trace only with polls, register
writes and the stabilization delay — in particular it never contains a
parent-controller start or an assertion event. -/
theorem sdramInitSequence_error_trace (use1 use2 : Bool)
    (cfgp : SDRAMConfig) (env : Nat → Nat) (fuel : Nat) (s : SeqSt)
    (etr : List Event)
    (h : sdramInitSequence use1 use2 cfgp env fuel s = .error etr) :
    ∃ extra, etr = s.tr ++ extra ∧
      ∀ e ∈ extra, e ≠ Event.fsmcStart ∧ e ≠ Event.assertFail := by
  have hpoll : ∀ (k : Nat) (e : Event), e ∈ (waitReady env k fuel).1 →
      e ≠ Event.fsmcStart ∧ e ≠ Event.assertFail := by
    intro k e he
    obtain ⟨v, rfl⟩ := waitReady_polls env fuel k e he
    exact ⟨by simp, by simp⟩
  unfold sdramInitSequence at h
  rw [andThen_stWait_error] at h
  rcases h with ⟨es, hw, rfl⟩ | ⟨es1, k1, hw1, h⟩
  · exact ⟨es, rfl, fun e he => hpoll s.k e (by rw [hw]; exact he)⟩
  · simp only [stWriteSDCMR, stSleep, stWriteSDRTR] at h
    rw [andThen_stWait_error] at h
    have hes1 := fun e he => hpoll s.k e (by rw [hw1]; exact he)
    rcases h with ⟨es, hw, rfl⟩ | ⟨es2, k2, hw2, h⟩
    · refine ⟨es1 ++ [Event.wSDCMR (clkEnableCmd use1 use2), Event.sleepMs 1]
        ++ es, by simp, ?_⟩
      intro e he
      simp only [List.mem_append, List.mem_cons, List.mem_singleton] at he
      rcases he with (he | he | he) | he
      · exact hes1 e he
      · subst he; exact ⟨by simp, by simp⟩
      · rcases he with rfl | h'
        · exact ⟨by simp, by simp⟩
        · simp at h'
      · exact hpoll _ e (by rw [hw]; exact he)
    · simp only [stWriteSDCMR, stSleep, stWriteSDRTR] at h
      rw [andThen_stWait_error] at h
      have hes2 := fun e he => hpoll _ e (by rw [hw2]; exact he)
      rcases h with ⟨es, hw, rfl⟩ | ⟨es3, k3, hw3, h⟩
      · refine ⟨es1 ++ [Event.wSDCMR (clkEnableCmd use1 use2),
          Event.sleepMs 1] ++ es2 ++ [Event.wSDCMR (pallCmd use1 use2)]
          ++ es, by simp, ?_⟩
        intro e he
        simp only [List.mem_append, List.mem_cons, List.mem_singleton] at he
        rcases he with (((he | he) | he) | he) | he
        · exact hes1 e he
        · rcases he with rfl | rfl | h'
          · exact ⟨by simp, by simp⟩
          · exact ⟨by simp, by simp⟩
          · simp at h'
        · exact hes2 e he
        · rcases he with rfl | h'
          · exact ⟨by simp, by simp⟩
          · simp at h'
        · exact hpoll _ e (by rw [hw]; exact he)
      · simp only [stWriteSDCMR, stSleep, stWriteSDRTR] at h
        rw [andThen_stWait_error] at h
        have hes3 := fun e he => hpoll _ e (by rw [hw3]; exact he)
        rcases h with ⟨es, hw, rfl⟩ | ⟨es4, k4, hw4, h⟩
        · refine ⟨es1 ++ [Event.wSDCMR (clkEnableCmd use1 use2),
            Event.sleepMs 1] ++ es2 ++ [Event.wSDCMR (pallCmd use1 use2)]
            ++ es3 ++ [Event.wSDCMR (autoRefreshCmd use1 use2 cfgp),
              Event.wSDCMR (autoRefreshCmd use1 use2 cfgp)]
            ++ es, by simp, ?_⟩
          intro e he
          simp only [List.mem_append, List.mem_cons, List.mem_singleton] at he
          rcases he with (((((he | he) | he) | he) | he) | he) | he
          · exact hes1 e he
          · rcases he with rfl | rfl | h'
            · exact ⟨by simp, by simp⟩
            · exact ⟨by simp, by simp⟩
            · simp at h'
          · exact hes2 e he
          · rcases he with rfl | h'
            · exact ⟨by simp, by simp⟩
            · simp at h'
          · exact hes3 e he
          · rcases he with rfl | rfl | h'
            · exact ⟨by simp, by simp⟩
            · exact ⟨by simp, by simp⟩
            · simp at h'
          · exact hpoll _ e (by rw [hw]; exact he)
        · simp only [stWriteSDCMR, stSleep, stWriteSDRTR] at h
          rw [andThen_stWait_error] at h
          have hes4 := fun e he => hpoll _ e (by rw [hw4]; exact he)
          rcases h with ⟨es, hw, rfl⟩ | ⟨es5, k5, hw5, h⟩
          · refine ⟨es1 ++ [Event.wSDCMR (clkEnableCmd use1 use2),
              Event.sleepMs 1] ++ es2 ++ [Event.wSDCMR (pallCmd use1 use2)]
              ++ es3 ++ [Event.wSDCMR (autoRefreshCmd use1 use2 cfgp),
                Event.wSDCMR (autoRefreshCmd use1 use2 cfgp)]
              ++ es4 ++ [Event.wSDCMR (loadModeCmd use1 use2 cfgp)]
              ++ es, by simp, ?_⟩
            intro e he
            simp only [List.mem_append, List.mem_cons, List.mem_singleton]
              at he
            rcases he with
              (((((((he | he) | he) | he) | he) | he) | he) | he) | he
            · exact hes1 e he
            · rcases he with rfl | rfl | h'
              · exact ⟨by simp, by simp⟩
              · exact ⟨by simp, by simp⟩
              · simp at h'
            · exact hes2 e he
            · rcases he with rfl | h'
              · exact ⟨by simp, by simp⟩
              · simp at h'
            · exact hes3 e he
            · rcases he with rfl | rfl | h'
              · exact ⟨by simp, by simp⟩
              · exact ⟨by simp, by simp⟩
              · simp at h'
            · exact hes4 e he
            · rcases he with rfl | h'
              · exact ⟨by simp, by simp⟩
              · simp at h'
            · exact hpoll _ e (by rw [hw]; exact he)
          · simp only [stWriteSDCMR, stSleep, stWriteSDRTR] at h
            rw [andThen_stWait_error] at h
            have hes5 := fun e he => hpoll _ e (by rw [hw5]; exact he)
            rcases h with ⟨es, hw, rfl⟩ | ⟨es6, k6, hw6, h⟩
            · refine ⟨es1 ++ [Event.wSDCMR (clkEnableCmd use1 use2),
                Event.sleepMs 1] ++ es2 ++ [Event.wSDCMR (pallCmd use1 use2)]
                ++ es3 ++ [Event.wSDCMR (autoRefreshCmd use1 use2 cfgp),
                  Event.wSDCMR (autoRefreshCmd use1 use2 cfgp)]
                ++ es4 ++ [Event.wSDCMR (loadModeCmd use1 use2 cfgp)]
                ++ es5 ++ [Event.wSDRTR cfgp.sdrtr]
                ++ es, by simp, ?_⟩
              intro e he
              simp only [List.mem_append, List.mem_cons, List.mem_singleton]
                at he
              rcases he with
                (((((((((he | he) | he) | he) | he) | he) | he) | he) | he)
                  | he) | he
              · exact hes1 e he
              · rcases he with rfl | rfl | h'
                · exact ⟨by simp, by simp⟩
                · exact ⟨by simp, by simp⟩
                · simp at h'
              · exact hes2 e he
              · rcases he with rfl | h'
                · exact ⟨by simp, by simp⟩
                · simp at h'
              · exact hes3 e he
              · rcases he with rfl | rfl | h'
                · exact ⟨by simp, by simp⟩
                · exact ⟨by simp, by simp⟩
                · simp at h'
              · exact hes4 e he
              · rcases he with rfl | h'
                · exact ⟨by simp, by simp⟩
                · simp at h'
              · exact hes5 e he
              · rcases he with rfl | h'
                · exact ⟨by simp, by simp⟩
                · simp at h'
              · exact hpoll _ e (by rw [hw]; exact he)
            · simp at h

/-- Conversely, six successful gates force the initialization sequence
to complete, with the trace and register file of `initTraceShape`. -/
theorem sdramInitSequence_eq_of_gates (use1 use2 : Bool)
    (cfgp : SDRAMConfig) (env : Nat → Nat) (fuel : Nat) (s : SeqSt)
    (w1 w2 w3 w4 w5 w6 : List Event) (k1 k2 k3 k4 k5 k6 : Nat)
    (e1 : waitReady env s.k fuel = (w1, some k1))
    (e2 : waitReady env k1 fuel = (w2, some k2))
    (e3 : waitReady env k2 fuel = (w3, some k3))
    (e4 : waitReady env k3 fuel = (w4, some k4))
    (e5 : waitReady env k4 fuel = (w5, some k5))
    (e6 : waitReady env k5 fuel = (w6, some k6)) :
    sdramInitSequence use1 use2 cfgp env fuel s =
      .ok ⟨{ s.regs with
             sdcmr := loadModeCmd use1 use2 cfgp
             sdrtr := cfgp.sdrtr }, k6,
           s.tr ++ initTraceShape use1 use2 cfgp w1 w2 w3 w4 w5 w6⟩ := by
  unfold sdramInitSequence
  rw [andThen_stWait_ok]
  refine ⟨w1, k1, e1, ?_⟩
  simp only [stWriteSDCMR, stSleep, stWriteSDRTR]
  rw [andThen_stWait_ok]
  refine ⟨w2, k2, e2, ?_⟩
  simp only [stWriteSDCMR, stSleep, stWriteSDRTR]
  rw [andThen_stWait_ok]
  refine ⟨w3, k3, e3, ?_⟩
  simp only [stWriteSDCMR, stSleep, stWriteSDRTR]
  rw [andThen_stWait_ok]
  refine ⟨w4, k4, e4, ?_⟩
  simp only [stWriteSDCMR, stSleep, stWriteSDRTR]
  rw [andThen_stWait_ok]
  refine ⟨w5, k5, e5, ?_⟩
  simp only [stWriteSDCMR, stSleep, stWriteSDRTR]
  rw [andThen_stWait_ok]
  refine ⟨w6, k6, e6, ?_⟩
  simp [initTraceShape]

/-- If the busy flag always eventually reads clear, the initialization
sequence completes with enough fuel. -/
theorem sdramInitSequence_total (use1 use2 : Bool) (cfgp : SDRAMConfig)
    (env : Nat → Nat)
    (h : ∀ j, ∃ m, j ≤ m ∧ env m &&& FMC_SDSR_BUSY = 0) (s : SeqSt) :
    ∃ fuel s', sdramInitSequence use1 use2 cfgp env fuel s = .ok s' := by
  obtain ⟨m1, hm1, hc1⟩ := h s.k
  obtain ⟨f1, w1, k1, e1⟩ := waitReady_terminates env (m1 - s.k) s.k m1 rfl hm1 hc1
  obtain ⟨m2, hm2, hc2⟩ := h k1
  obtain ⟨f2, w2, k2, e2⟩ := waitReady_terminates env (m2 - k1) k1 m2 rfl hm2 hc2
  obtain ⟨m3, hm3, hc3⟩ := h k2
  obtain ⟨f3, w3, k3, e3⟩ := waitReady_terminates env (m3 - k2) k2 m3 rfl hm3 hc3
  obtain ⟨m4, hm4, hc4⟩ := h k3
  obtain ⟨f4, w4, k4, e4⟩ := waitReady_terminates env (m4 - k3) k3 m4 rfl hm4 hc4
  obtain ⟨m5, hm5, hc5⟩ := h k4
  obtain ⟨f5, w5, k5, e5⟩ := waitReady_terminates env (m5 - k4) k4 m5 rfl hm5 hc5
  obtain ⟨m6, hm6, hc6⟩ := h k5
  obtain ⟨f6, w6, k6, e6⟩ := waitReady_terminates env (m6 - k5) k5 m6 rfl hm6 hc6
  refine ⟨f1 + f2 + f3 + f4 + f5 + f6, _,
    sdramInitSequence_eq_of_gates use1 use2 cfgp env _ s w1 w2 w3 w4 w5 w6
      k1 k2 k3 k4 k5 k6
      (waitReady_mono env f1 s.k w1 k1 _ e1 (by omega))
      (waitReady_mono env f2 k1 w2 k2 _ e2 (by omega))
      (waitReady_mono env f3 k2 w3 k3 _ e3 (by omega))
      (waitReady_mono env f4 k3 w4 k4 _ e4 (by omega))
      (waitReady_mono env f5 k4 w5 k5 _ e5 (by omega))
      (waitReady_mono env f6 k5 w6 k6 _ e6 (by omega))⟩

/-! ### Scan lemmas for command-write gating -/

theorem scanState_append (a : List Event) :
    ∀ (st : Bool × Option Nat) (c : List Event),
      scanState st (a ++ c) = scanState (scanState st a) c := by
  induction a with
  | nil => intro st c; rfl
  | cons e rest ih =>
    intro st c
    rcases st with ⟨b, p⟩
    cases e <;> simp only [List.cons_append, scanState] <;> exact ih _ c

theorem cmdWritesGatedAmended_append (a : List Event) :
    ∀ (st : Bool × Option Nat) (c : List Event),
      cmdWritesGatedAmended st (a ++ c) =
        (cmdWritesGatedAmended st a &&
          cmdWritesGatedAmended (scanState st a) c) := by
  induction a with
  | nil => intro st c; simp [cmdWritesGatedAmended, scanState]
  | cons e rest ih =>
    intro st c
    rcases st with ⟨b, p⟩
    cases e <;>
      simp only [List.cons_append, cmdWritesGatedAmended, scanState,
        List.append_eq] <;>
      rw [ih] <;> simp [Bool.and_assoc]

/-- Scanning a burst of polls ending in a clear poll always leaves the
"clear poll seen" flag set. -/
theorem scanState_clearPollBurst (w : List Event) (h : clearPollBurst w) :
    ∀ st, scanState st w = (true, none) := by
  obtain ⟨hne, hpolls, v, hlast, hclear⟩ := h
  intro st
  have hg : w.getLast hne = Event.poll v := by
    have := List.getLast?_eq_getLast w hne ▸ hlast
    exact Option.some.inj this
  have hw : w = w.dropLast ++ [Event.poll v] := by
    rw [← hg]
    exact (List.dropLast_append_getLast hne).symm
  rw [hw, scanState_append]
  rcases hs : scanState st w.dropLast with ⟨b, p⟩
  simp [scanState, Event.isClearPoll, hclear]

/-- A burst of polls contains no command write, so it trivially
satisfies the gating property from any scan state. -/
theorem cmdWritesGatedAmended_polls (w : List Event)
    (h : ∀ e ∈ w, ∃ v, e = Event.poll v) :
    ∀ st, cmdWritesGatedAmended st w = true := by
  induction w with
  | nil => intro st; rfl
  | cons e rest ih =>
    intro st
    obtain ⟨u, rfl⟩ := h e (List.mem_cons_self e rest)
    rcases st with ⟨b, p⟩
    simp only [cmdWritesGatedAmended]
    exact ih (fun e he => h e (List.mem_cons_of_mem _ he)) _

/-! ### Shared consequences of a completed start -/

/-- The command-register writes of any completed start from STOPPED, in
order: clock-enable, precharge-all, auto-refresh twice, load-mode. -/
theorem start_cmdWrites (use1 use2 : Bool) (env : Nat → Nat) (fuel : Nat)
    (m : Machine) (cfgp : SDRAMConfig) (k : Nat) (m' : Machine) (k' : Nat)
    (tr : List Event) (hst : m.sdramState = SdramState.stop)
    (h : fsmcSdramStart use1 use2 env fuel m cfgp k = .ok m' k' tr) :
    cmdWrites tr = [clkEnableCmd use1 use2, pallCmd use1 use2,
      autoRefreshCmd use1 use2 cfgp, autoRefreshCmd use1 use2 cfgp,
      loadModeCmd use1 use2 cfgp] := by
  obtain ⟨w1, k1, w2, k2, w3, k3, w4, k4, w5, k5, w6, k6,
    hw1, hw2, hw3, hw4, hw5, hw6, _, _, htr⟩ :=
    fsmcSdramStart_stop_ok use1 use2 env fuel m cfgp k m' k' tr hst h
  subst htr
  rw [cmdWrites_append, cmdWrites_append]
  rw [cmdWrites_initTraceShape use1 use2 cfgp w1 w2 w3 w4 w5 w6
    (fun e he => waitReady_polls env fuel _ e (by rw [hw1]; exact he))
    (fun e he => waitReady_polls env fuel _ e (by rw [hw2]; exact he))
    (fun e he => waitReady_polls env fuel _ e (by rw [hw3]; exact he))
    (fun e he => waitReady_polls env fuel _ e (by rw [hw4]; exact he))
    (fun e he => waitReady_polls env fuel _ e (by rw [hw5]; exact he))
    (fun e he => waitReady_polls env fuel _ e (by rw [hw6]; exact he))]
  rcases hf : m.fsmcState <;> simp [cmdWrites, bankWrites]

/-! ### The claims -/

/-- C4: for every handle, `stop` performs no hardware register writes:
if the state is READY it sets the state to STOPPED, if the state is
already STOPPED it changes nothing, and in both cases every hardware
register is left unmodified. -/
theorem C4_stop_writes_nothing (m : Machine) :
    (fsmcSdramStop m).2 = [] ∧
    (fsmcSdramStop m).1.regs = m.regs ∧
    (fsmcSdramStop m).1.fsmcState = m.fsmcState ∧
    (m.sdramState = SdramState.ready →
      (fsmcSdramStop m).1.sdramState = SdramState.stop) ∧
    (m.sdramState = SdramState.stop → fsmcSdramStop m = (m, [])) := by
  unfold fsmcSdramStop
  rcases h : m.sdramState <;> simp [h]

/-- C4 witness: on a concrete READY machine, `stop` clears the
lifecycle flag and leaves the registers untouched. -/
theorem C4_stop_writes_nothing_witness :
    (fsmcSdramStop ⟨FsmcState.ready, SdramState.ready, ⟨1, 2, 3, 4, 5, 6⟩⟩).1.sdramState
        = SdramState.stop ∧
    (fsmcSdramStop ⟨FsmcState.ready, SdramState.ready, ⟨1, 2, 3, 4, 5, 6⟩⟩).1.regs
        = ⟨1, 2, 3, 4, 5, 6⟩ :=
  ⟨(C4_stop_writes_nothing
      ⟨FsmcState.ready, SdramState.ready, ⟨1, 2, 3, 4, 5, 6⟩⟩).2.2.2.1 rfl,
   (C4_stop_writes_nothing
      ⟨FsmcState.ready, SdramState.ready, ⟨1, 2, 3, 4, 5, 6⟩⟩).2.1⟩

/-- C3: calling start on a READY handle performs zero register writes
and leaves the state READY; a second start with a different
configuration is the same silent no-op, keeping the first
configuration. -/
theorem C3_start_ready_noop (use1 use2 : Bool) (env : Nat → Nat)
    (fuel : Nat) (m : Machine) (cfgp cfgp' : SDRAMConfig) (k : Nat)
    (h : m.sdramState = SdramState.ready) :
    fsmcSdramStart use1 use2 env fuel m cfgp k =
      .ok { m with fsmcState := FsmcState.ready } k
        (if m.fsmcState = FsmcState.stop then [Event.fsmcStart] else []) ∧
    (∀ e ∈ (fsmcSdramStart use1 use2 env fuel m cfgp k).trace,
      e.isRegWrite = false) ∧
    fsmcSdramStart use1 use2 env fuel m cfgp k =
      fsmcSdramStart use1 use2 env fuel m cfgp' k := by
  unfold fsmcSdramStart
  rw [h]
  rcases hf : m.fsmcState <;>
    simp [StartResult.trace, Event.isRegWrite, Machine.mk.injEq, hf]

/-- C3 witness: a concrete READY machine, started again with a fresh
configuration, is returned unchanged (up to the parent controller
becoming started) with an empty register-write trace. -/
theorem C3_start_ready_noop_witness :
    fsmcSdramStart true false (fun _ => 0) 1
      ⟨FsmcState.stop, SdramState.ready, ⟨1, 2, 3, 4, 5, 6⟩⟩ ⟨11, 22, 0, 77⟩ 5 =
      .ok ⟨FsmcState.ready, SdramState.ready, ⟨1, 2, 3, 4, 5, 6⟩⟩ 5
        [Event.fsmcStart] :=
  (C3_start_ready_noop true false (fun _ => 0) 1
    ⟨FsmcState.stop, SdramState.ready, ⟨1, 2, 3, 4, 5, 6⟩⟩
    ⟨11, 22, 0, 77⟩ ⟨99, 98, 97, 96⟩ 5 rfl).1

/-- C2: after a completed start from STOPPED, bank 1's and bank 2's
control registers both equal the supplied control value and bank 1's
and bank 2's timing registers both equal the supplied timing value. -/
theorem C2_both_banks_configured (use1 use2 : Bool) (env : Nat → Nat)
    (fuel : Nat) (m : Machine) (cfgp : SDRAMConfig) (k : Nat)
    (m' : Machine) (k' : Nat) (tr : List Event)
    (hst : m.sdramState = SdramState.stop)
    (h : fsmcSdramStart use1 use2 env fuel m cfgp k = .ok m' k' tr) :
    m'.regs.sdcr0 = cfgp.sdcr ∧ m'.regs.sdcr1 = cfgp.sdcr ∧
    m'.regs.sdtr0 = cfgp.sdtr ∧ m'.regs.sdtr1 = cfgp.sdtr := by
  obtain ⟨_, _, _, _, _, _, _, _, _, _, _, _, _, _, _, _, _, _, hm, _, _⟩ :=
    fsmcSdramStart_stop_ok use1 use2 env fuel m cfgp k m' k' tr hst h
  subst hm
  simp [startedRegs]

/-- C2 witness: a concrete run from STOPPED ends with both bank pairs
holding the configured values. -/
theorem C2_both_banks_configured_witness :
    (⟨FsmcState.ready, SdramState.ready, ⟨11, 22, 11, 22, 20, 77⟩⟩ :
        Machine).regs.sdcr0 = 11 ∧
    (⟨FsmcState.ready, SdramState.ready, ⟨11, 22, 11, 22, 20, 77⟩⟩ :
        Machine).regs.sdcr1 = 11 ∧
    (⟨FsmcState.ready, SdramState.ready, ⟨11, 22, 11, 22, 20, 77⟩⟩ :
        Machine).regs.sdtr0 = 22 ∧
    (⟨FsmcState.ready, SdramState.ready, ⟨11, 22, 11, 22, 20, 77⟩⟩ :
        Machine).regs.sdtr1 = 22 :=
  C2_both_banks_configured true false (fun _ => 0) 1
    ⟨FsmcState.ready, SdramState.stop, ⟨0, 0, 0, 0, 0, 0⟩⟩ ⟨11, 22, 0, 77⟩ 0
    ⟨FsmcState.ready, SdramState.ready, ⟨11, 22, 11, 22, 20, 77⟩⟩ 6
    [Event.wSDCR 0 11, Event.wSDTR 0 22, Event.wSDCR 1 11, Event.wSDTR 1 22,
     Event.poll 0, Event.wSDCMR 17, Event.sleepMs 1, Event.poll 0,
     Event.wSDCMR 18, Event.poll 0, Event.wSDCMR 19, Event.wSDCMR 19,
     Event.poll 0, Event.wSDCMR 20, Event.poll 0, Event.wSDRTR 77,
     Event.poll 0]
    rfl (by decide)

/-- C1: a start from STOPPED writes to the command register exactly the
ordered command codes clock-enable, precharge-all, auto-refresh,
auto-refresh, load-mode-register; a readiness gate (a burst of polls
ending in a "not busy" read) immediately precedes the clock-enable,
precharge-all, first auto-refresh and load-mode writes, the second
auto-refresh immediately follows the first with no re-polling, and a
final readiness gate ends the trace before control returns. -/
theorem C1_start_command_sequence (use1 use2 : Bool) (env : Nat → Nat)
    (fuel : Nat) (m : Machine) (cfgp : SDRAMConfig) (k : Nat)
    (m' : Machine) (k' : Nat) (tr : List Event)
    (hst : m.sdramState = SdramState.stop)
    (h : fsmcSdramStart use1 use2 env fuel m cfgp k = .ok m' k' tr) :
    cmdWrites tr = [clkEnableCmd use1 use2, pallCmd use1 use2,
      autoRefreshCmd use1 use2 cfgp, autoRefreshCmd use1 use2 cfgp,
      loadModeCmd use1 use2 cfgp] ∧
    ∃ w1 w2 w3 w4 w5 w6,
      clearPollBurst w1 ∧ clearPollBurst w2 ∧ clearPollBurst w3 ∧
      clearPollBurst w4 ∧ clearPollBurst w5 ∧ clearPollBurst w6 ∧
      tr = (if m.fsmcState = FsmcState.stop then [Event.fsmcStart] else []) ++
        bankWrites cfgp ++
        initTraceShape use1 use2 cfgp w1 w2 w3 w4 w5 w6 := by
  refine ⟨start_cmdWrites use1 use2 env fuel m cfgp k m' k' tr hst h, ?_⟩
  obtain ⟨w1, k1, w2, k2, w3, k3, w4, k4, w5, k5, w6, k6,
    hw1, hw2, hw3, hw4, hw5, hw6, _, _, htr⟩ :=
    fsmcSdramStart_stop_ok use1 use2 env fuel m cfgp k m' k' tr hst h
  exact ⟨w1, w2, w3, w4, w5, w6,
    waitReady_clearPollBurst env fuel _ w1 k1 hw1,
    waitReady_clearPollBurst env fuel _ w2 k2 hw2,
    waitReady_clearPollBurst env fuel _ w3 k3 hw3,
    waitReady_clearPollBurst env fuel _ w4 k4 hw4,
    waitReady_clearPollBurst env fuel _ w5 k5 hw5,
    waitReady_clearPollBurst env fuel _ w6 k6 hw6, htr⟩

/-- C1 witness: the concrete run with an always-ready controller
produces exactly the five command codes in order. -/
theorem C1_start_command_sequence_witness :
    cmdWrites
      [Event.wSDCR 0 11, Event.wSDTR 0 22, Event.wSDCR 1 11,
       Event.wSDTR 1 22, Event.poll 0, Event.wSDCMR 17, Event.sleepMs 1,
       Event.poll 0, Event.wSDCMR 18, Event.poll 0, Event.wSDCMR 19,
       Event.wSDCMR 19, Event.poll 0, Event.wSDCMR 20, Event.poll 0,
       Event.wSDRTR 77, Event.poll 0] =
      [clkEnableCmd true false, pallCmd true false,
       autoRefreshCmd true false ⟨11, 22, 0, 77⟩,
       autoRefreshCmd true false ⟨11, 22, 0, 77⟩,
       loadModeCmd true false ⟨11, 22, 0, 77⟩] :=
  (C1_start_command_sequence true false (fun _ => 0) 1
    ⟨FsmcState.ready, SdramState.stop, ⟨0, 0, 0, 0, 0, 0⟩⟩ ⟨11, 22, 0, 77⟩ 0
    ⟨FsmcState.ready, SdramState.ready, ⟨11, 22, 11, 22, 20, 77⟩⟩ 6
    [Event.wSDCR 0 11, Event.wSDTR 0 22, Event.wSDCR 1 11, Event.wSDTR 1 22,
     Event.poll 0, Event.wSDCMR 17, Event.sleepMs 1, Event.poll 0,
     Event.wSDCMR 18, Event.poll 0, Event.wSDCMR 19, Event.wSDCMR 19,
     Event.poll 0, Event.wSDCMR 20, Event.poll 0, Event.wSDRTR 77,
     Event.poll 0]
    rfl (by decide)).1

/-- C6: after a completed start from STOPPED, the refresh-timer
register equals the configured reload value, and the refresh-timer
write occurs strictly after the load-mode command write (everything
between and after them being status polls, not register writes). -/
theorem C6_refresh_timer_last (use1 use2 : Bool) (env : Nat → Nat)
    (fuel : Nat) (m : Machine) (cfgp : SDRAMConfig) (k : Nat)
    (m' : Machine) (k' : Nat) (tr : List Event)
    (hst : m.sdramState = SdramState.stop)
    (h : fsmcSdramStart use1 use2 env fuel m cfgp k = .ok m' k' tr) :
    m'.regs.sdrtr = cfgp.sdrtr ∧
    ∃ l1 l2 l3,
      tr = l1 ++ [Event.wSDCMR (loadModeCmd use1 use2 cfgp)] ++ l2 ++
        [Event.wSDRTR cfgp.sdrtr] ++ l3 ∧
      (∀ e ∈ l2, e.isRegWrite = false) ∧
      (∀ e ∈ l3, e.isRegWrite = false) := by
  obtain ⟨w1, k1, w2, k2, w3, k3, w4, k4, w5, k5, w6, k6,
    hw1, hw2, hw3, hw4, hw5, hw6, hm, _, htr⟩ :=
    fsmcSdramStart_stop_ok use1 use2 env fuel m cfgp k m' k' tr hst h
  have hpolls5 : ∀ e ∈ w5, e.isRegWrite = false := by
    intro e he
    obtain ⟨v, rfl⟩ := waitReady_polls env fuel _ e (by rw [hw5]; exact he)
    rfl
  have hpolls6 : ∀ e ∈ w6, e.isRegWrite = false := by
    intro e he
    obtain ⟨v, rfl⟩ := waitReady_polls env fuel _ e (by rw [hw6]; exact he)
    rfl
  refine ⟨by rw [hm]; rfl, ?_⟩
  refine ⟨(if m.fsmcState = FsmcState.stop then [Event.fsmcStart] else []) ++
    bankWrites cfgp ++ w1 ++
    [Event.wSDCMR (clkEnableCmd use1 use2), Event.sleepMs 1] ++ w2 ++
    [Event.wSDCMR (pallCmd use1 use2)] ++ w3 ++
    [Event.wSDCMR (autoRefreshCmd use1 use2 cfgp),
     Event.wSDCMR (autoRefreshCmd use1 use2 cfgp)] ++ w4, w5, w6,
    ?_, hpolls5, hpolls6⟩
  rw [htr]
  simp [initTraceShape, bankWrites]

/-- C6 witness: the concrete run ends with the refresh timer holding
the configured reload value 77, written after the load-mode command. -/
theorem C6_refresh_timer_last_witness :
    (⟨FsmcState.ready, SdramState.ready, ⟨11, 22, 11, 22, 20, 77⟩⟩ :
        Machine).regs.sdrtr = 77 :=
  (C6_refresh_timer_last true false (fun _ => 0) 1
    ⟨FsmcState.ready, SdramState.stop, ⟨0, 0, 0, 0, 0, 0⟩⟩ ⟨11, 22, 0, 77⟩ 0
    ⟨FsmcState.ready, SdramState.ready, ⟨11, 22, 11, 22, 20, 77⟩⟩ 6
    [Event.wSDCR 0 11, Event.wSDTR 0 22, Event.wSDCR 1 11, Event.wSDTR 1 22,
     Event.poll 0, Event.wSDCMR 17, Event.sleepMs 1, Event.poll 0,
     Event.wSDCMR 18, Event.poll 0, Event.wSDCMR 19, Event.wSDCMR 19,
     Event.poll 0, Event.wSDCMR 20, Event.poll 0, Event.wSDRTR 77,
     Event.poll 0]
    rfl (by decide)).1

/-- A burst of polls never contains the parent-start event. -/
theorem fsmcStart_not_mem_of_polls (w : List Event)
    (h : ∀ e ∈ w, ∃ v, e = Event.poll v) : Event.fsmcStart ∉ w := by
  intro hm
  obtain ⟨v, hv⟩ := h _ hm
  exact absurd hv (by simp)

/-- C5: start fails via the fatal assertion exactly when the lifecycle
state is neither STOPPED nor READY at entry; when the state is STOPPED
or READY the assertion is unreachable and the call either returns
successfully or blocks on a readiness gate — there is no error return
channel. -/
theorem C5_assert_iff_invalid_state (use1 use2 : Bool) (env : Nat → Nat)
    (fuel : Nat) (m : Machine) (cfgp : SDRAMConfig) (k : Nat) :
    ((∃ tr, fsmcSdramStart use1 use2 env fuel m cfgp k =
        .assertFailed tr) ↔
      (m.sdramState ≠ SdramState.stop ∧ m.sdramState ≠ SdramState.ready)) ∧
    ((m.sdramState = SdramState.stop ∨ m.sdramState = SdramState.ready) →
      (∃ m' k' tr, fsmcSdramStart use1 use2 env fuel m cfgp k =
        .ok m' k' tr) ∨
      (∃ tr, fsmcSdramStart use1 use2 env fuel m cfgp k = .hung tr)) := by
  constructor
  · constructor
    · rintro ⟨tr, hr⟩
      unfold fsmcSdramStart at hr
      rcases hs : m.sdramState with _ | _ | _
      · simp
      · rw [hs] at hr
        simp only [reduceCtorEq, or_false, or_true, false_or, or_self,
          reduceIte] at hr
        split at hr <;> simp at hr
      · rw [hs] at hr
        simp only [reduceCtorEq, or_false, or_true, false_or, or_self,
          reduceIte] at hr
    · rintro ⟨h1, h2⟩
      unfold fsmcSdramStart
      rcases hs : m.sdramState with _ | _ | _
      · simp only [reduceCtorEq, or_self, reduceIte]
        exact ⟨_, rfl⟩
      · exact absurd hs h1
      · exact absurd hs h2
  · intro hgood
    unfold fsmcSdramStart
    rcases hs : m.sdramState with _ | _ | _
    · rcases hgood with h | h <;> rw [hs] at h <;> simp at h
    · simp only [reduceCtorEq, or_false, or_true, false_or, or_self,
        reduceIte]
      split
      · exact Or.inl ⟨_, _, _, rfl⟩
      · exact Or.inr ⟨_, rfl⟩
    · simp only [reduceCtorEq, or_false, or_true, false_or, or_self,
        reduceIte]
      exact Or.inl ⟨_, _, _, rfl⟩

/-- C5 witness: on a concrete handle whose state is neither STOPPED nor
READY, start returns the fatal-assertion outcome. -/
theorem C5_assert_iff_invalid_state_witness :
    ∃ tr, fsmcSdramStart true false (fun _ => 0) 1
      ⟨FsmcState.ready, SdramState.uninit, ⟨1, 2, 3, 4, 5, 6⟩⟩
      ⟨11, 22, 0, 77⟩ 0 = .assertFailed tr :=
  (C5_assert_iff_invalid_state true false (fun _ => 0) 1
    ⟨FsmcState.ready, SdramState.uninit, ⟨1, 2, 3, 4, 5, 6⟩⟩
    ⟨11, 22, 0, 77⟩ 0).1.mpr ⟨by decide, by decide⟩

/-- C8: every call to start begins by invoking the parent bus
controller's start exactly when the parent is stopped at entry: the
parent-start event heads the trace in that case and occurs nowhere
else, in every outcome (normal return, fatal assertion or hang) and for
every lifecycle state of the handle. -/
theorem C8_lazy_parent_start (use1 use2 : Bool) (env : Nat → Nat)
    (fuel : Nat) (m : Machine) (cfgp : SDRAMConfig) (k : Nat) :
    ∃ rest,
      (fsmcSdramStart use1 use2 env fuel m cfgp k).trace =
        (if m.fsmcState = FsmcState.stop then [Event.fsmcStart] else []) ++
          rest ∧
      Event.fsmcStart ∉ rest := by
  unfold fsmcSdramStart
  rcases hs : m.sdramState with _ | _ | _
  · simp only [reduceCtorEq, or_self, reduceIte]
    exact ⟨[Event.assertFail], rfl, by simp⟩
  · simp only [reduceCtorEq, or_false, or_true, false_or, or_self,
      reduceIte]
    split
    · rename_i s heq
      obtain ⟨w1, k1, w2, k2, w3, k3, w4, k4, w5, k5, w6, k6,
        hw1, hw2, hw3, hw4, hw5, hw6, hseq⟩ :=
        sdramInitSequence_ok use1 use2 cfgp env fuel _ s heq
      refine ⟨bankWrites cfgp ++
        initTraceShape use1 use2 cfgp w1 w2 w3 w4 w5 w6, ?_, ?_⟩
      · rw [StartResult.trace, hseq]
        simp [bankWrites]
      · intro hmem
        rcases List.mem_append.mp hmem with hb | hshape
        · simp [bankWrites] at hb
        · have hp : ∀ i, (∀ e ∈ (i : List Event), ∃ v, e = Event.poll v) →
              Event.fsmcStart ∉ i := fun i hi => fsmcStart_not_mem_of_polls i hi
          revert hshape
          simp only [initTraceShape, List.mem_append, List.mem_cons,
            List.mem_singleton]
          rintro ((((((((((hw | hw) | hw) | hw) | hw) | hw) | hw) | hw)
            | hw) | hw) | hw) <;>
            first
              | (exact hp _ (fun e he =>
                  waitReady_polls env fuel _ e (by
                    first
                      | (rw [hw1]; exact he) | (rw [hw2]; exact he)
                      | (rw [hw3]; exact he) | (rw [hw4]; exact he)
                      | (rw [hw5]; exact he) | (rw [hw6]; exact he))) hw)
              | simp_all
    · rename_i etr heq
      obtain ⟨extra, hetr, hex⟩ :=
        sdramInitSequence_error_trace use1 use2 cfgp env fuel _ etr heq
      refine ⟨bankWrites cfgp ++ extra, ?_, ?_⟩
      · rw [StartResult.trace, hetr]
        simp [bankWrites]
      · intro hmem
        rcases List.mem_append.mp hmem with hb | hx
        · simp [bankWrites] at hb
        · exact (hex _ hx).1 rfl
  · simp only [reduceCtorEq, or_false, or_true, false_or, or_self,
      reduceIte]
    exact ⟨[], by simp [StartResult.trace], by simp⟩

/-- C7 counterexample: in a concrete completed start from STOPPED, it
is not the case that every command-register write is preceded by a
"not busy" status poll since the previous command write — the second
auto-refresh write (value 19) immediately follows the first with no
poll in between. -/
theorem C7_counterexample :
    fsmcSdramStart true false (fun _ => 0) 1
      ⟨FsmcState.ready, SdramState.stop, ⟨0, 0, 0, 0, 0, 0⟩⟩
      ⟨11, 22, 0, 77⟩ 0 =
      .ok ⟨FsmcState.ready, SdramState.ready, ⟨11, 22, 11, 22, 20, 77⟩⟩ 6
        [Event.wSDCR 0 11, Event.wSDTR 0 22, Event.wSDCR 1 11,
         Event.wSDTR 1 22, Event.poll 0, Event.wSDCMR 17, Event.sleepMs 1,
         Event.poll 0, Event.wSDCMR 18, Event.poll 0, Event.wSDCMR 19,
         Event.wSDCMR 19, Event.poll 0, Event.wSDCMR 20, Event.poll 0,
         Event.wSDRTR 77, Event.poll 0] ∧
    cmdWritesGated false
      [Event.wSDCR 0 11, Event.wSDTR 0 22, Event.wSDCR 1 11,
       Event.wSDTR 1 22, Event.poll 0, Event.wSDCMR 17, Event.sleepMs 1,
       Event.poll 0, Event.wSDCMR 18, Event.poll 0, Event.wSDCMR 19,
       Event.wSDCMR 19, Event.poll 0, Event.wSDCMR 20, Event.poll 0,
       Event.wSDRTR 77, Event.poll 0] = false := ⟨by decide, by decide⟩

/-- C7 (amended): during a completed start from STOPPED, every
command-register write is either preceded by a "not busy" status poll
since the previous command write, or immediately follows a command
write of the identical value; the latter happens, namely the second
auto-refresh write is issued directly after the first. -/
theorem C7_amended_gating (use1 use2 : Bool) (env : Nat → Nat)
    (fuel : Nat) (m : Machine) (cfgp : SDRAMConfig) (k : Nat)
    (m' : Machine) (k' : Nat) (tr : List Event)
    (hst : m.sdramState = SdramState.stop)
    (h : fsmcSdramStart use1 use2 env fuel m cfgp k = .ok m' k' tr) :
    cmdWritesGatedAmended (false, none) tr = true ∧
    ∃ l1 l2, tr = l1 ++
      [Event.wSDCMR (autoRefreshCmd use1 use2 cfgp),
       Event.wSDCMR (autoRefreshCmd use1 use2 cfgp)] ++ l2 := by
  obtain ⟨w1, k1, w2, k2, w3, k3, w4, k4, w5, k5, w6, k6,
    hw1, hw2, hw3, hw4, hw5, hw6, _, _, htr⟩ :=
    fsmcSdramStart_stop_ok use1 use2 env fuel m cfgp k m' k' tr hst h
  have hb1 := waitReady_clearPollBurst env fuel _ w1 k1 hw1
  have hb2 := waitReady_clearPollBurst env fuel _ w2 k2 hw2
  have hb3 := waitReady_clearPollBurst env fuel _ w3 k3 hw3
  have hb4 := waitReady_clearPollBurst env fuel _ w4 k4 hw4
  have hb5 := waitReady_clearPollBurst env fuel _ w5 k5 hw5
  have hb6 := waitReady_clearPollBurst env fuel _ w6 k6 hw6
  constructor
  · rw [htr]
    have hs1 := scanState_clearPollBurst w1 hb1
    have hs2 := scanState_clearPollBurst w2 hb2
    have hs3 := scanState_clearPollBurst w3 hb3
    have hs4 := scanState_clearPollBurst w4 hb4
    have hs5 := scanState_clearPollBurst w5 hb5
    have hs6 := scanState_clearPollBurst w6 hb6
    have hg1 := cmdWritesGatedAmended_polls w1 hb1.2.1
    have hg2 := cmdWritesGatedAmended_polls w2 hb2.2.1
    have hg3 := cmdWritesGatedAmended_polls w3 hb3.2.1
    have hg4 := cmdWritesGatedAmended_polls w4 hb4.2.1
    have hg5 := cmdWritesGatedAmended_polls w5 hb5.2.1
    have hg6 := cmdWritesGatedAmended_polls w6 hb6.2.1
    rcases hf : m.fsmcState <;>
      simp [initTraceShape, bankWrites, cmdWritesGatedAmended_append,
        scanState_append, hs1, hs2, hs3, hs4, hs5, hs6, hg1, hg2, hg3, hg4,
        hg5, hg6, cmdWritesGatedAmended, scanState, Event.isClearPoll]
  · refine ⟨(if m.fsmcState = FsmcState.stop then [Event.fsmcStart] else [])
      ++ bankWrites cfgp ++ w1 ++
      [Event.wSDCMR (clkEnableCmd use1 use2), Event.sleepMs 1] ++ w2 ++
      [Event.wSDCMR (pallCmd use1 use2)] ++ w3,
      w4 ++ [Event.wSDCMR (loadModeCmd use1 use2 cfgp)] ++ w5 ++
      [Event.wSDRTR cfgp.sdrtr] ++ w6, ?_⟩
    rw [htr]
    simp [initTraceShape, bankWrites]

/-- C7 amended witness: the concrete run satisfies the amended gating
property and contains the adjacent auto-refresh pair. -/
theorem C7_amended_gating_witness :
    cmdWritesGatedAmended (false, none)
      [Event.wSDCR 0 11, Event.wSDTR 0 22, Event.wSDCR 1 11,
       Event.wSDTR 1 22, Event.poll 0, Event.wSDCMR 17, Event.sleepMs 1,
       Event.poll 0, Event.wSDCMR 18, Event.poll 0, Event.wSDCMR 19,
       Event.wSDCMR 19, Event.poll 0, Event.wSDCMR 20, Event.poll 0,
       Event.wSDRTR 77, Event.poll 0] = true :=
  (C7_amended_gating true false (fun _ => 0) 1
    ⟨FsmcState.ready, SdramState.stop, ⟨0, 0, 0, 0, 0, 0⟩⟩ ⟨11, 22, 0, 77⟩ 0
    ⟨FsmcState.ready, SdramState.ready, ⟨11, 22, 11, 22, 20, 77⟩⟩ 6
    [Event.wSDCR 0 11, Event.wSDTR 0 22, Event.wSDCR 1 11, Event.wSDTR 1 22,
     Event.poll 0, Event.wSDCMR 17, Event.sleepMs 1, Event.poll 0,
     Event.wSDCMR 18, Event.poll 0, Event.wSDCMR 19, Event.wSDCMR 19,
     Event.poll 0, Event.wSDCMR 20, Event.poll 0, Event.wSDRTR 77,
     Event.poll 0]
    rfl (by decide)).1

/-- C9: the readiness gate polls the busy flag with no timeout: it
returns exactly when a poll reads the flag clear (the last poll is
clear, all earlier ones busy), it can return at all precisely when the
flag eventually reads clear, start from STOPPED terminates when the
flag always eventually clears, and a flag that never clears leaves
start blocked (hung) for every amount of fuel. -/
theorem C9_busy_wait_unbounded (use1 use2 : Bool) (env : Nat → Nat)
    (m : Machine) (cfgp : SDRAMConfig) (k : Nat) :
    (∀ fuel j es k', waitReady env j fuel = (es, some k') →
      env (k' - 1) &&& FMC_SDSR_BUSY = 0 ∧
      ∀ i, j ≤ i → i + 1 < k' → env i &&& FMC_SDSR_BUSY ≠ 0) ∧
    (∀ j, (∃ fuel es k', waitReady env j fuel = (es, some k')) ↔
      ∃ i, j ≤ i ∧ env i &&& FMC_SDSR_BUSY = 0) ∧
    ((∀ j, ∃ i, j ≤ i ∧ env i &&& FMC_SDSR_BUSY = 0) →
      m.sdramState = SdramState.stop →
      ∃ fuel m' k' tr,
        fsmcSdramStart use1 use2 env fuel m cfgp k = .ok m' k' tr) ∧
    ((∀ i, k ≤ i → env i &&& FMC_SDSR_BUSY ≠ 0) →
      m.sdramState = SdramState.stop →
      ∀ fuel, ∃ tr,
        fsmcSdramStart use1 use2 env fuel m cfgp k = .hung tr) := by
  refine ⟨?_, ?_, ?_, ?_⟩
  · intro fuel j es k' h
    obtain ⟨_, hclear, hbusy, _⟩ := waitReady_spec env fuel j es k' h
    exact ⟨hclear, hbusy⟩
  · intro j
    constructor
    · rintro ⟨fuel, es, k', h⟩
      obtain ⟨hlt, hclear, _, _⟩ := waitReady_spec env fuel j es k' h
      exact ⟨k' - 1, by omega, hclear⟩
    · rintro ⟨i, hji, hclear⟩
      exact waitReady_terminates env (i - j) j i rfl hji hclear
  · intro henv hst
    obtain ⟨fuel, s', hseq⟩ := sdramInitSequence_total use1 use2 cfgp env henv
      ⟨{ m.regs with
         sdcr0 := cfgp.sdcr
         sdtr0 := cfgp.sdtr
         sdcr1 := cfgp.sdcr
         sdtr1 := cfgp.sdtr }, k,
       (if m.fsmcState = FsmcState.stop then [Event.fsmcStart] else []) ++
         [Event.wSDCR 0 cfgp.sdcr, Event.wSDTR 0 cfgp.sdtr,
          Event.wSDCR 1 cfgp.sdcr, Event.wSDTR 1 cfgp.sdtr]⟩
    refine ⟨fuel,
      { fsmcState := if m.fsmcState = FsmcState.stop then FsmcState.ready
          else m.fsmcState,
        sdramState := SdramState.ready, regs := s'.regs },
      s'.k, s'.tr, ?_⟩
    unfold fsmcSdramStart
    rw [hst]
    simp only [reduceCtorEq, or_false, or_true, false_or, or_self,
      reduceIte]
    rw [hseq]
  · intro hbusy hst fuel
    unfold fsmcSdramStart
    rw [hst]
    simp only [reduceCtorEq, or_false, or_true, false_or, or_self,
      reduceIte]
    rcases hw : waitReady env k fuel with ⟨es, r⟩
    have hr : r = none := by
      have hd := waitReady_diverges env fuel k hbusy
      rw [hw] at hd
      exact hd
    subst hr
    have hseq : sdramInitSequence use1 use2 cfgp env fuel
        ⟨{ m.regs with
           sdcr0 := cfgp.sdcr
           sdtr0 := cfgp.sdtr
           sdcr1 := cfgp.sdcr
           sdtr1 := cfgp.sdtr }, k,
         (if m.fsmcState = FsmcState.stop then [Event.fsmcStart] else []) ++
           [Event.wSDCR 0 cfgp.sdcr, Event.wSDTR 0 cfgp.sdtr,
            Event.wSDCR 1 cfgp.sdcr, Event.wSDTR 1 cfgp.sdtr]⟩ =
        .error (((if m.fsmcState = FsmcState.stop then [Event.fsmcStart]
          else []) ++
          [Event.wSDCR 0 cfgp.sdcr, Event.wSDTR 0 cfgp.sdtr,
           Event.wSDCR 1 cfgp.sdcr, Event.wSDTR 1 cfgp.sdtr]) ++ es) := by
      unfold sdramInitSequence
      rw [andThen_stWait_error]
      exact Or.inl ⟨es, hw, rfl⟩
    rw [hseq]
    exact ⟨_, rfl⟩

/-- C9 witness: with a status register that always reads busy, a
concrete start from STOPPED hangs. -/
theorem C9_busy_wait_unbounded_witness :
    ∃ tr, fsmcSdramStart true false (fun _ => 0x20) 2
      ⟨FsmcState.ready, SdramState.stop, ⟨0, 0, 0, 0, 0, 0⟩⟩
      ⟨11, 22, 0, 77⟩ 0 = .hung tr :=
  (C9_busy_wait_unbounded true false (fun _ => 0x20)
    ⟨FsmcState.ready, SdramState.stop, ⟨0, 0, 0, 0, 0, 0⟩⟩
    ⟨11, 22, 0, 77⟩ 0).2.2.2 (fun i _ => by decide) rfl 2

/-- C10: the caller-supplied command-register field is masked before
use — two configurations agreeing on the refresh-cycle-count (NRFS)
bits and mode-register (MRD) bits of that field, and on all other
fields, make start behave identically; and the two auto-refresh writes
carry the bit-identical masked value. -/
theorem C10_command_field_masked (use1 use2 : Bool) (env : Nat → Nat)
    (fuel : Nat) (m : Machine) (k : Nat) (cfgp cfgp' : SDRAMConfig)
    (hcr : cfgp.sdcr = cfgp'.sdcr) (htm : cfgp.sdtr = cfgp'.sdtr)
    (hrt : cfgp.sdrtr = cfgp'.sdrtr)
    (hn : cfgp.sdcmr &&& FMC_SDCMR_NRFS = cfgp'.sdcmr &&& FMC_SDCMR_NRFS)
    (hmrd : cfgp.sdcmr &&& FMC_SDCMR_MRD = cfgp'.sdcmr &&& FMC_SDCMR_MRD) :
    fsmcSdramStart use1 use2 env fuel m cfgp k =
      fsmcSdramStart use1 use2 env fuel m cfgp' k ∧
    (∀ m' k' tr, m.sdramState = SdramState.stop →
      fsmcSdramStart use1 use2 env fuel m cfgp k = .ok m' k' tr →
      (cmdWrites tr).get? 2 = some (autoRefreshCmd use1 use2 cfgp) ∧
      (cmdWrites tr).get? 3 = some (autoRefreshCmd use1 use2 cfgp)) := by
  have har : autoRefreshCmd use1 use2 cfgp = autoRefreshCmd use1 use2 cfgp' := by
    unfold autoRefreshCmd
    rw [hn]
  have hlm : loadModeCmd use1 use2 cfgp = loadModeCmd use1 use2 cfgp' := by
    unfold loadModeCmd
    rw [hmrd]
  have hseq : ∀ s, sdramInitSequence use1 use2 cfgp env fuel s =
      sdramInitSequence use1 use2 cfgp' env fuel s := by
    intro s
    unfold sdramInitSequence
    rw [har, hlm, hrt]
  constructor
  · unfold fsmcSdramStart
    rw [hcr, htm]
    simp only [hseq]
  · intro m' k' tr hst h
    have hcw := start_cmdWrites use1 use2 env fuel m cfgp k m' k' tr hst h
    rw [hcw]
    exact ⟨rfl, rfl⟩

/-- C10 witness: two concrete configurations whose command fields
differ only outside the NRFS and MRD masks drive start identically. -/
theorem C10_command_field_masked_witness :
    fsmcSdramStart true false (fun _ => 0) 1
      ⟨FsmcState.ready, SdramState.stop, ⟨0, 0, 0, 0, 0, 0⟩⟩
      ⟨11, 22, 31, 77⟩ 0 =
    fsmcSdramStart true false (fun _ => 0) 1
      ⟨FsmcState.ready, SdramState.stop, ⟨0, 0, 0, 0, 0, 0⟩⟩
      ⟨11, 22, 4194304, 77⟩ 0 :=
  (C10_command_field_masked true false (fun _ => 0) 1
    ⟨FsmcState.ready, SdramState.stop, ⟨0, 0, 0, 0, 0, 0⟩⟩ 0
    ⟨11, 22, 31, 77⟩ ⟨11, 22, 4194304, 77⟩
    rfl rfl rfl (by decide) (by decide)).1
